import Mathlib

/-!
Shallow embedding of the ZeroERP real-time event distribution core:
the webhook registry / signer / dispatcher in `src/server/index.js` and
the WebSocket connection / subscription / broadcast engine in
`src/server/services/websocket.js`.

JavaScript values are modelled as follows: JSON values by the inductive
`Json`; JS `Map`s by association lists (`alistFind` returns the first
binding; a JS `Map` never holds duplicate keys, and the update and remove
helpers act on every binding with the given key, which coincides with JS
semantics on such lists); JS `Set`s by duplicate-free lists (`setAdd`,
`setRemove`).  Network effects are modelled as explicit traces: an HTTP
delivery is a `Delivery` record, a WebSocket send is a `(clientId, frame)`
pair, and fetch outcomes are supplied by an oracle `Delivery → FetchResult`.
-/

/-- JSON values.  Numbers are modelled as integers; the claims under study
never depend on floating-point formatting. -/
inductive Json where
  | null : Json
  | bool (b : Bool) : Json
  | num (n : Int) : Json
  | str (s : String) : Json
  | arr (elems : List Json) : Json
  | obj (fields : List (String × Json)) : Json

/-- First binding for a key in an association list (JS `Map.get`). -/
def alistFind {α : Type} (l : List (String × α)) (k : String) : Option α :=
  match l with
  | [] => none
  | (k', v) :: rest => if k' = k then some v else alistFind rest k

/-- Replace the value bound to a key (JS `Map.set` on a present key).
Acts on every binding with that key; on duplicate-free key lists, which is
all a JS `Map` can produce, this is the usual single update. -/
def alistSet {α : Type} (l : List (String × α)) (k : String) (v : α) :
    List (String × α) :=
  l.map (fun p => if p.1 = k then (k, v) else p)

/-- Remove a key (JS `Map.delete`). -/
def alistRemove {α : Type} (l : List (String × α)) (k : String) :
    List (String × α) :=
  l.filter (fun p => decide (p.1 ≠ k))

/-- JS `Set.add`: append the element unless already present. -/
def setAdd (s : List String) (a : String) : List String :=
  if a ∈ s then s else s ++ [a]

/-- JS `Set.delete`. -/
def setRemove (s : List String) (a : String) : List String :=
  s.filter (fun x => decide (x ≠ a))

/-- Escaping of one character inside a JSON string literal, as
`JSON.stringify` produces it for the characters that occur in this system. -/
def jsonEscapeChar (c : Char) : String :=
  if c = '\"' then "\\\""
  else if c = '\\' then "\\\\"
  else if c = '\n' then "\\n"
  else if c = '\r' then "\\r"
  else if c = '\t' then "\\t"
  else String.singleton c

/-- A JSON string literal with surrounding quotes. -/
def jsonQuote (s : String) : String :=
  "\"" ++ String.join (s.toList.map jsonEscapeChar) ++ "\""

mutual

/-- Serialization mirroring `JSON.stringify`: object keys are emitted in
insertion order, exactly as V8 does for the string-keyed objects this
system builds. -/
def Json.stringify : Json → String
  | .null => "null"
  | .bool b => if b then "true" else "false"
  | .num n => toString n
  | .str s => jsonQuote s
  | .arr elems => "[" ++ stringifyElems elems ++ "]"
  | .obj fields => "\x7b" ++ stringifyFields fields ++ "\x7d"

/-- Comma-separated serialization of array elements. -/
def stringifyElems : List Json → String
  | [] => ""
  | [x] => x.stringify
  | x :: y :: rest => x.stringify ++ "," ++ stringifyElems (y :: rest)

/-- Comma-separated serialization of object fields. -/
def stringifyFields : List (String × Json) → String
  | [] => ""
  | [(k, v)] => jsonQuote k ++ ":" ++ v.stringify
  | (k, v) :: q :: rest =>
      jsonQuote k ++ ":" ++ v.stringify ++ "," ++ stringifyFields (q :: rest)

end

/-- JS truthiness of a JSON value (`null`, `false`, `0`, `""` are falsy). -/
def Json.truthy : Json → Bool
  | .null => false
  | .bool b => b
  | .num n => decide (n ≠ 0)
  | .str s => decide (s ≠ "")
  | .arr _ => true
  | .obj _ => true

/-- Truthiness filter for an optional string field (`payload?.channel`):
an absent field or the empty string is falsy. -/
def jsTruthyStr : Option String → Option String
  | none => none
  | some s => if s = "" then none else some s

/-- Truthiness of an optional JSON field (`payload?.data`). -/
def jsTruthyData : Option Json → Bool
  | none => false
  | some j => j.truthy

/-! ## Webhook system (`src/server/index.js`) -/

/-- The closed event taxonomy: the keys of the `WEBHOOK_EVENTS` object in
`src/server/index.js` (the human-readable descriptions play no role in the
control flow and are elided). -/
def WEBHOOK_EVENTS : List String :=
  ["order.created", "order.shipped", "order.cancelled",
   "inventory.low", "inventory.updated", "po.created", "po.received"]

/-- Truthiness test `WEBHOOK_EVENTS[event]` used by `emitEvent` and by the
registration route (every description string is non-empty, so truthiness
coincides with key membership). -/
def isKnownEvent (e : String) : Bool :=
  WEBHOOK_EVENTS.contains e

/-- A registered webhook subscriber.  A missing or empty `secret` is
modelled as `""`, matching its JS falsiness in every use site. -/
structure Webhook where
  id : String
  url : String
  events : List String
  secret : String
  createdAt : String
deriving DecidableEq, Repr

/-- One outbound HTTP POST: the request `triggerWebhooks` (or the test
route) hands to `fetch`. -/
structure Delivery where
  url : String
  headers : List (String × String)
  body : String
deriving DecidableEq, Repr

/-- The webhook payload object `{ event, timestamp, data }`, in the key
order the source builds it. -/
def payloadJson (event ts : String) (data : Json) : Json :=
  Json.obj [("event", Json.str event), ("timestamp", Json.str ts), ("data", data)]

/-- `generateWebhookSignature`: HMAC of `JSON.stringify(payload)` under the
secret.  The HMAC-SHA256 primitive itself is an opaque parameter
`hmac key msg`; every property proved below holds for any such function. -/
def generateWebhookSignature (hmac : String → String → String)
    (payload : Json) (secret : String) : String :=
  hmac secret payload.stringify

/-- The POST request `triggerWebhooks` builds for one subscriber: headers
`Content-Type`, `X-ZeroERP-Event`, `X-ZeroERP-Timestamp`, plus
`X-ZeroERP-Signature` when a secret is configured; the body is
`JSON.stringify` of the payload. -/
def mkDelivery (hmac : String → String → String) (w : Webhook)
    (event ts : String) (data : Json) : Delivery :=
  let payload := payloadJson event ts data
  { url := w.url
  , headers :=
      [("Content-Type", "application/json"),
       ("X-ZeroERP-Event", event),
       ("X-ZeroERP-Timestamp", ts)]
      ++ (if w.secret ≠ "" then
            [("X-ZeroERP-Signature", generateWebhookSignature hmac payload w.secret)]
          else [])
  , body := payload.stringify }

/-- `triggerWebhooks event data`: filter the registry for subscribers whose
`events` include the event, and fire one POST per such subscriber.  The
result is the list of delivery attempts, each paired with the subscriber it
is addressed to (the `subscribers.forEach` loop body).  The early return on
an empty subscriber list yields the same empty attempt list. -/
def triggerWebhooks (hmac : String → String → String) (reg : List Webhook)
    (ts event : String) (data : Json) : List (Webhook × Delivery) :=
  (reg.filter (fun w => w.events.contains event)).map
    (fun w => (w, mkDelivery hmac w event ts data))

/-- `emitEvent`: validates the event name against the taxonomy; unknown
names only log a warning and produce nothing, valid names trigger the
webhook dispatcher.  This is the complete effect of `emitEvent` on the
outside world: `src/server/index.js` does not import the WebSocket service,
so no realtime publish happens here. -/
def emitEvent (hmac : String → String → String) (reg : List Webhook)
    (ts event : String) (data : Json) : List (Webhook × Delivery) :=
  if isKnownEvent event then triggerWebhooks hmac reg ts event data else []

/-- An observable side effect of the server core: an outbound HTTP POST or
a WebSocket frame pushed to a connected client. -/
inductive Effect where
  | httpPost (d : Delivery)
  | wsSend (clientId : String) (frame : Json)

/-- Whether an action is a realtime (WebSocket) send. -/
def Effect.isWsSend : Effect → Bool
  | .wsSend _ _ => true
  | .httpPost _ => false

/-- The effect trace of one `emitEvent` call: the HTTP posts of the
dispatcher and nothing else. -/
def emitActions (hmac : String → String → String) (reg : List Webhook)
    (ts event : String) (data : Json) : List Effect :=
  (emitEvent hmac reg ts event data).map (fun a => Effect.httpPost a.2)

/-- Outcome of one `fetch` to a subscriber endpoint: a completed HTTP
response with a status, or a network error with a message. -/
inductive FetchResult where
  | http (status : Nat)
  | netError (msg : String)

/-- The `res.ok` predicate: status in the 2xx range. -/
def statusOk (s : Nat) : Bool :=
  decide (200 ≤ s) && decide (s < 300)

/-- What the dispatcher's `.then`/`.catch` handlers do with one delivery
outcome: log it (debug on success, warn on a non-2xx status, error on a
network failure); nothing else. -/
inductive LogEntry where
  | delivered (url : String)
  | deliveryFailed (url : String) (status : Nat)
  | deliveryError (url : String) (msg : String)
deriving DecidableEq, Repr

/-- The log entry recorded for one delivery attempt under the outcome
oracle `net`. -/
def deliveryLog (net : Delivery → FetchResult) (d : Delivery) : LogEntry :=
  match net d with
  | .http s => if statusOk s then .delivered d.url else .deliveryFailed d.url s
  | .netError m => .deliveryError d.url m

/-- The full fire-and-forget dispatch of one validated event: the attempt
list (what is posted) and the log entries its outcomes produce.  Outcomes
are consumed only by the logger; they feed back into nothing. -/
def dispatchWebhooks (net : Delivery → FetchResult)
    (hmac : String → String → String) (reg : List Webhook)
    (ts event : String) (data : Json) :
    List (Webhook × Delivery) × List LogEntry :=
  let atts := emitEvent hmac reg ts event data
  (atts, atts.map (fun a => deliveryLog net a.2))

/-- The body of a webhook registration request (`POST /api/webhooks`).
`url = ""` models a missing or empty `url` (both falsy); `events = none`
models a missing or non-array `events`; `secret = ""` models a missing
secret (`secret || crypto.randomBytes(...)`). -/
structure RegisterRequest where
  url : String
  events : Option (List String)
  secret : String
deriving DecidableEq, Repr

/-- The webhook object the registration handler builds on success: a
generated id, the caller-supplied or generated secret, and the creation
timestamp. -/
def mkStoredWebhook (req : RegisterRequest) (genId genSecret ts : String)
    (evs : List String) : Webhook :=
  { id := genId
  , url := req.url
  , events := evs
  , secret := if req.secret = "" then genSecret else req.secret
  , createdAt := ts }

/-- The `POST /api/webhooks` handler: reject a falsy `url` or missing
`events`; reject any unrecognized event name; otherwise append a new
subscriber with a generated id (`genId`) and, when no secret was supplied,
a generated secret (`genSecret`).  Errors model the 400 responses. -/
def registerWebhook (req : RegisterRequest) (reg : List Webhook)
    (genId genSecret ts : String) : Except String (Webhook × List Webhook) :=
  if req.url = "" then .error "url and events array are required"
  else
    match req.events with
    | none => .error "url and events array are required"
    | some evs =>
      let invalid := evs.filter (fun e => !(isKnownEvent e))
      if invalid.isEmpty then
        let w : Webhook := mkStoredWebhook req genId genSecret ts evs
        .ok (w, reg ++ [w])
      else .error ("Invalid events: " ++ String.intercalate ", " invalid)

/-- Whether an `Except` result is a success. -/
def exceptOk {ε α : Type} : Except ε α → Bool
  | .ok _ => true
  | .error _ => false

/-- Response body of the `POST /api/webhooks/:webhookId/test` route. -/
structure TestResponse where
  success : Bool
  statusCode : Option Nat
  errorMsg : Option String
  message : String
deriving DecidableEq, Repr

/-- The data record of the synthetic `test` payload. -/
def testData : Json :=
  Json.obj [("message", Json.str "This is a test webhook from ZeroERP")]

/-- The `POST /api/webhooks/:webhookId/test` handler: 404 (`Except.error`)
when no subscriber has the id; otherwise one awaited delivery of a
synthetic `test` event, whose outcome — HTTP status or network error — is
returned as a 200 result value, never thrown. -/
def testWebhook (net : Delivery → FetchResult)
    (hmac : String → String → String) (reg : List Webhook)
    (wid ts : String) : Except String TestResponse :=
  match reg.find? (fun w => w.id == wid) with
  | none => .error "Webhook not found"
  | some w =>
    let d := mkDelivery hmac w "test" ts testData
    match net d with
    | .http s =>
        .ok { success := statusOk s
            , statusCode := some s
            , errorMsg := none
            , message := if statusOk s then "Test webhook delivered successfully"
                         else "Webhook delivery failed" }
    | .netError m =>
        .ok { success := false
            , statusCode := none
            , errorMsg := some m
            , message := "Failed to deliver test webhook" }

/-- First value bound to a header name in a header list. -/
def headerValue (headers : List (String × String)) (k : String) : Option String :=
  alistFind headers k

/-! ## WebSocket engine (`src/server/services/websocket.js`) -/

/-- One live connection as the service tracks it: the socket's
`readyState === OPEN` flag, whether a physical `ws.send` succeeds (the
`try`/`catch` around it), and the per-client subscription set.  The
`metadata` record (connect time, ip, user agent) plays no role in any
operation and is elided. -/
structure Client where
  openConn : Bool
  sendOk : Bool
  subscriptions : List String
deriving DecidableEq, Repr

/-- The module-level mutable state of the service: the `clients` map
(clientId to client record) and the `channels` map (channel name to
subscriber id set). -/
structure WSState where
  clients : List (String × Client)
  channels : List (String × List String)
deriving DecidableEq, Repr

/-- `channelMembers` query: the subscriber ids of a channel, empty when the
channel is absent from the map. -/
def channelMembers (st : WSState) (ch : String) : List String :=
  (alistFind st.channels ch).getD []

/-- Whether `sendToClient` would succeed for this client id: the client is
registered, its socket is open, and the physical send does not throw. -/
def canSend (st : WSState) (cid : String) : Bool :=
  match alistFind st.clients cid with
  | none => false
  | some c => c.openConn && c.sendOk

/-- `sendToClient`: returns `false` for an unknown id or a socket that is
not open, and `false` when the send throws; on success the frame reaches
the client.  The second component is the trace of frames actually
delivered.  The registry is never mutated. -/
def sendToClient (st : WSState) (cid : String) (frame : Json) :
    Bool × List (String × Json) :=
  match alistFind st.clients cid with
  | none => (false, [])
  | some c =>
    if c.openConn then
      (if c.sendOk then (true, [(cid, frame)]) else (false, []))
    else (false, [])

/-- JS object spread `{ ...data, channel }`: on an object, overwrite or
append the `channel` field; the call sites only ever pass object literals,
so the non-object case (which in JS would spread no properties) reduces to
the single field. -/
def objSet (j : Json) (k : String) (v : Json) : Json :=
  match j with
  | .obj fields =>
      .obj (if (alistFind fields k).isSome then alistSet fields k v
            else fields ++ [(k, v)])
  | _ => .obj [(k, v)]

/-- One iteration of the `subscribers.forEach` loop of
`broadcastToChannel`: try the send, count it if it succeeded, and extend
the trace of delivered frames. -/
def sendStep (st : WSState) (frame : Json)
    (acc : Nat × List (String × Json)) (cid : String) :
    Nat × List (String × Json) :=
  let r := sendToClient st cid frame
  (acc.1 + (if r.1 then 1 else 0), acc.2 ++ r.2)

/-- `broadcastToChannel`: no subscribers means a sent count of 0 and no
sends; otherwise each member is sent `{ ...data, channel }` and only the
sends that returned `true` are counted. -/
def broadcastToChannel (st : WSState) (ch : String) (data : Json) :
    Nat × List (String × Json) :=
  match alistFind st.channels ch with
  | none => (0, [])
  | some members =>
      members.foldl (sendStep st (objSet data "channel" (Json.str ch))) (0, [])

/-- The `{type: 'event', event, data, timestamp}` message the Realtime
Event Bridge builds. -/
def eventMessage (eventType : String) (eventData : Json) (ts : String) : Json :=
  Json.obj [("type", Json.str "event"), ("event", Json.str eventType),
            ("data", eventData), ("timestamp", Json.str ts)]

/-- `broadcastEvent` (the Realtime Event Bridge): publish the event message
to the event-specific channel and to the synthetic `all-events` channel.
Returns the message together with the two sent counts and the concatenated
send trace. -/
def broadcastEvent (st : WSState) (eventType : String) (eventData : Json)
    (ts : String) : Json × Nat × Nat × List (String × Json) :=
  let message := eventMessage eventType eventData ts
  let r1 := broadcastToChannel st eventType message
  let r2 := broadcastToChannel st "all-events" message
  (message, r1.1, r2.1, r1.2 ++ r2.2)

/-- The `{type: 'error', message}` frame. -/
def errorFrame (msg : String) : Json :=
  Json.obj [("type", Json.str "error"), ("message", Json.str msg)]

/-- Addition of one client id to one channel's subscriber set, creating the
channel on first subscription (the `channels` update step of
`handleSubscribe`). -/
def chanAdd (chs : List (String × List String)) (ch cid : String) :
    List (String × List String) :=
  match alistFind chs ch with
  | none => chs ++ [(ch, [cid])]
  | some s => alistSet chs ch (setAdd s cid)

/-- `handleSubscribe`: a falsy channel yields an error frame; an unknown
client id is a silent no-op; otherwise the channel is added to the client's
subscription set and the client id to the channel's subscriber set (the
channel being created on first subscription), and a `subscribed` ack is
sent. -/
def handleSubscribe (st : WSState) (clientId : String)
    (channel : Option String) (ts : String) :
    WSState × List (String × Json) :=
  match jsTruthyStr channel with
  | none =>
      (st, (sendToClient st clientId
              (errorFrame "Channel name required for subscription")).2)
  | some ch =>
    match alistFind st.clients clientId with
    | none => (st, [])
    | some client =>
      let client' := { client with subscriptions := setAdd client.subscriptions ch }
      let st' : WSState :=
        { clients := alistSet st.clients clientId client'
        , channels := chanAdd st.channels ch clientId }
      (st', (sendToClient st' clientId
               (Json.obj [("type", Json.str "subscribed"),
                          ("channel", Json.str ch),
                          ("timestamp", Json.str ts)])).2)

/-- Removal of one client id from one channel's subscriber set, deleting
the channel when it becomes empty (the shared cleanup step of
`handleUnsubscribe` and `handleDisconnect`). -/
def chanDel (chs : List (String × List String)) (ch cid : String) :
    List (String × List String) :=
  match alistFind chs ch with
  | none => chs
  | some s =>
    let s' := setRemove s cid
    if s'.isEmpty then alistRemove chs ch else alistSet chs ch s'

/-- `handleUnsubscribe`: a falsy channel or unknown client is a silent
no-op (no error frame); otherwise the channel is removed from both sides
of the subscription relation, the channel is deleted if left empty, and an
`unsubscribed` ack is sent. -/
def handleUnsubscribe (st : WSState) (clientId : String)
    (channel : Option String) : WSState × List (String × Json) :=
  match jsTruthyStr channel with
  | none => (st, [])
  | some ch =>
    match alistFind st.clients clientId with
    | none => (st, [])
    | some client =>
      let client' := { client with subscriptions := setRemove client.subscriptions ch }
      let st' : WSState :=
        { clients := alistSet st.clients clientId client'
        , channels := chanDel st.channels ch clientId }
      (st', (sendToClient st' clientId
               (Json.obj [("type", Json.str "unsubscribed"),
                          ("channel", Json.str ch)])).2)

/-- `handleDisconnect`: remove the client id from the subscriber set of
every channel it had subscribed to, deleting any channel left empty, then
drop the client record. -/
def handleDisconnect (st : WSState) (clientId : String) : WSState :=
  match alistFind st.clients clientId with
  | none => st
  | some client =>
    { clients := alistRemove st.clients clientId
    , channels :=
        client.subscriptions.foldl (fun chs ch => chanDel chs ch clientId)
          st.channels }

/-- An inbound client frame after `JSON.parse`: its `type` field (any
non-string or missing type falls to the default switch arm, modelled by an
unmatched string) and the optional `payload.channel` / `payload.data`
fields. -/
structure ClientMessage where
  type : String
  channel : Option String
  data : Option Json

/-- The `{type: 'message', from, data}` relay frame of the client
`broadcast` path. -/
def messageFrame (fromId : String) (data : Json) : Json :=
  Json.obj [("type", Json.str "message"), ("from", Json.str fromId), ("data", data)]

/-- `handleMessage`: the switch over the message type.  `subscribe`,
`unsubscribe` and `ping` are as in the source; `broadcast` relays only when
both `payload.channel` and `payload.data` are truthy; any other type is
answered with an `error` frame. -/
def handleMessage (st : WSState) (clientId : String) (m : ClientMessage)
    (ts : String) (now : Int) : WSState × List (String × Json) :=
  if m.type = "subscribe" then handleSubscribe st clientId m.channel ts
  else if m.type = "unsubscribe" then handleUnsubscribe st clientId m.channel
  else if m.type = "ping" then
    (st, (sendToClient st clientId
            (Json.obj [("type", Json.str "pong"), ("timestamp", Json.num now)])).2)
  else if m.type = "broadcast" then
    if (jsTruthyStr m.channel).isSome && jsTruthyData m.data then
      (st, (broadcastToChannel st ((jsTruthyStr m.channel).getD "")
              (messageFrame clientId ((m.data).getD Json.null))).2)
    else (st, [])
  else
    (st, (sendToClient st clientId
            (errorFrame ("Unknown message type: " ++ m.type))).2)

/-- The `ws.on('message')` handler: a frame that fails `JSON.parse`
(modelled as `none`) is answered with the invalid-format error frame and
nothing else; a parsed frame goes to `handleMessage`.  Neither path closes
the connection. -/
def handleRaw (st : WSState) (clientId : String) (raw : Option ClientMessage)
    (ts : String) (now : Int) : WSState × List (String × Json) :=
  match raw with
  | none =>
      (st, (sendToClient st clientId
              (errorFrame "Invalid message format. Expected JSON.")).2)
  | some m => handleMessage st clientId m ts now

/-- The `type` field of a server frame, when it is a string. -/
def frameType (j : Json) : Option String :=
  match j with
  | .obj fields =>
    match alistFind fields "type" with
    | some (.str t) => some t
    | _ => none
  | _ => none

/-- The recognized client message shapes of the realtime wire protocol
(spec section 6): `subscribe{channel}`, `unsubscribe{channel}`, `ping`,
`broadcast{channel, data}`; `none` stands for a frame that failed to parse
as JSON.  This definition follows the spec's wording and is used to state
the malformed-message claim against the handlers above. -/
def recognizedShape : Option ClientMessage → Bool
  | none => false
  | some m =>
    if m.type = "subscribe" then (jsTruthyStr m.channel).isSome
    else if m.type = "unsubscribe" then (jsTruthyStr m.channel).isSome
    else if m.type = "ping" then true
    else if m.type = "broadcast" then
      (jsTruthyStr m.channel).isSome && jsTruthyData m.data
    else false

/-- Two-sided consistency of the subscription relation, which
`handleSubscribe`/`handleUnsubscribe` maintain: every id held by a channel
belongs to a registered client whose subscription set lists that channel. -/
def memberSubCheck (st : WSState) : Bool :=
  st.channels.all fun p =>
    p.2.all fun cid =>
      match alistFind st.clients cid with
      | none => false
      | some c => p.1 ∈ c.subscriptions

/-- No channel in the map has an empty subscriber set (channels are created
on first subscription and deleted when emptied). -/
def noEmptyCheck (st : WSState) : Bool :=
  st.channels.all fun p => !p.2.isEmpty

/-- The sends a channel broadcast performs, described extensionally: one
frame per registered, open, sendable member, tagged with the channel. -/
def wsDeliveries (st : WSState) (ch : String) (m : Json) :
    List (String × Json) :=
  ((channelMembers st ch).filter (fun c => canSend st c)).map
    (fun c => (c, objSet m "channel" (Json.str ch)))

/-- Occurrence count of a value in a list. -/
def countOcc {α : Type} [DecidableEq α] (l : List α) (a : α) : Nat :=
  match l with
  | [] => 0
  | x :: xs => (if x = a then 1 else 0) + countOcc xs a

/-! ## Concrete fixtures for witnesses and counterexamples -/

/-- A stand-in HMAC used only to instantiate the `hmac` parameter at
concrete inputs; the theorems themselves hold for every HMAC function. -/
def hmacStub (key msg : String) : String :=
  key ++ "|" ++ msg

/-- A subscriber to `order.created` with a configured secret. -/
def wOrder : Webhook :=
  { id := "id1", url := "https://example.com/hook"
  , events := ["order.created"], secret := "s1", createdAt := "T0" }

/-- A subscriber to `inventory.low` only. -/
def wInv : Webhook :=
  { id := "id2", url := "https://example.net/inv"
  , events := ["inventory.low"], secret := "", createdAt := "T0" }

/-- A two-subscriber registry. -/
def regTwo : List Webhook := [wOrder, wInv]

/-- A realtime state: client `c1` is open and subscribed to
`order.created`; client `c2` is open with no subscriptions. -/
def wsOne : WSState :=
  { clients :=
      [("c1", { openConn := true, sendOk := true, subscriptions := ["order.created"] }),
       ("c2", { openConn := true, sendOk := true, subscriptions := [] })]
  , channels := [("order.created", ["c1"])] }

/-- A concrete fetch oracle where every delivery fails with a network
error. -/
def netRefused : Delivery → FetchResult :=
  fun _ => .netError "ECONNREFUSED"

/-- A concrete fetch oracle where every delivery completes with HTTP 200. -/
def netOk200 : Delivery → FetchResult :=
  fun _ => .http 200

/-- The malformed `unsubscribe` frame: parses as JSON, carries no
`payload.channel`. -/
def mUnsub : ClientMessage :=
  { type := "unsubscribe", channel := none, data := none }

/-- A registration request with a valid URL and an empty events array. -/
def reqEmptyEvents : RegisterRequest :=
  { url := "https://example.com/hook", events := some [], secret := "" }

/-- A registration request with an empty URL. -/
def reqNoUrl : RegisterRequest :=
  { url := "", events := some ["order.created"], secret := "" }

/-- A registration request naming an unrecognized event. -/
def reqBadEvent : RegisterRequest :=
  { url := "https://x", events := some ["nope"], secret := "" }

/-- The subscriber record stored by registering `reqEmptyEvents`. -/
def wEmptyStored : Webhook :=
  { id := "gid", url := "https://example.com/hook", events := [],
    secret := "gsec", createdAt := "T0" }

/-! ## Association-list and set lemmas -/

@[simp]
theorem alistFind_nil {α : Type} (k : String) :
    alistFind ([] : List (String × α)) k = none := rfl

@[simp]
theorem alistFind_cons {α : Type} (k₀ k : String) (v₀ : α)
    (rest : List (String × α)) :
    alistFind ((k₀, v₀) :: rest) k
      = if k₀ = k then some v₀ else alistFind rest k := rfl

@[simp]
theorem alistSet_nil {α : Type} (k : String) (v : α) :
    alistSet ([] : List (String × α)) k v = [] := rfl

@[simp]
theorem alistSet_cons {α : Type} (k₀ k : String) (v₀ v : α)
    (rest : List (String × α)) :
    alistSet ((k₀, v₀) :: rest) k v
      = (if k₀ = k then (k, v) else (k₀, v₀)) :: alistSet rest k v := by
  by_cases h : k₀ = k <;> simp [alistSet, h]

@[simp]
theorem alistRemove_nil {α : Type} (k : String) :
    alistRemove ([] : List (String × α)) k = [] := rfl

@[simp]
theorem alistRemove_cons {α : Type} (k₀ k : String) (v₀ : α)
    (rest : List (String × α)) :
    alistRemove ((k₀, v₀) :: rest) k
      = if k₀ = k then alistRemove rest k else (k₀, v₀) :: alistRemove rest k := by
  by_cases h : k₀ = k <;> simp [alistRemove, h]

theorem alistFind_mem {α : Type} {l : List (String × α)} {k : String} {v : α}
    (h : alistFind l k = some v) : (k, v) ∈ l := by
  induction l with
  | nil => simp at h
  | cons p rest ih =>
    obtain ⟨k', v'⟩ := p
    by_cases hk : k' = k
    · subst hk
      rw [alistFind_cons, if_pos rfl] at h
      obtain rfl := Option.some.inj h
      exact List.mem_cons_self _ _
    · simp only [alistFind_cons, if_neg hk] at h
      exact List.mem_cons_of_mem _ (ih h)

theorem alistFind_alistSet_self {α : Type} (l : List (String × α)) (k : String)
    (v : α) : alistFind (alistSet l k v) k = (alistFind l k).map (fun _ => v) := by
  induction l with
  | nil => simp
  | cons p rest ih =>
    obtain ⟨k₀, v₀⟩ := p
    by_cases hk : k₀ = k
    · simp [hk]
    · simp [hk, ih]

theorem alistFind_alistSet_other {α : Type} (l : List (String × α))
    (k k' : String) (v : α) (hne : k' ≠ k) :
    alistFind (alistSet l k v) k' = alistFind l k' := by
  induction l with
  | nil => simp
  | cons p rest ih =>
    obtain ⟨k₀, v₀⟩ := p
    by_cases hk : k₀ = k
    · subst hk
      simp [Ne.symm hne, ih]
    · by_cases hk' : k₀ = k'
      · subst hk'
        simp [hk]
      · simp [hk, hk', ih]

theorem alistSet_alistSet_self {α : Type} (l : List (String × α)) (k : String)
    (v w : α) : alistSet (alistSet l k v) k w = alistSet l k w := by
  induction l with
  | nil => simp
  | cons p rest ih =>
    obtain ⟨k₀, v₀⟩ := p
    by_cases hk : k₀ = k
    · simp [hk, ih]
    · simp [hk, ih]

theorem alistSet_of_find_none {α : Type} (l : List (String × α)) (k : String)
    (v : α) (h : alistFind l k = none) : alistSet l k v = l := by
  induction l with
  | nil => simp
  | cons p rest ih =>
    obtain ⟨k₀, v₀⟩ := p
    by_cases hk : k₀ = k
    · subst hk
      simp at h
    · simp only [alistFind_cons, if_neg hk] at h
      simp [hk, ih h]

theorem alistFind_append_of_none {α : Type} (l l' : List (String × α))
    (k : String) (h : alistFind l k = none) :
    alistFind (l ++ l') k = alistFind l' k := by
  induction l with
  | nil => simp
  | cons p rest ih =>
    obtain ⟨k₀, v₀⟩ := p
    by_cases hk : k₀ = k
    · subst hk
      simp at h
    · simp only [alistFind_cons, if_neg hk] at h
      simp only [List.cons_append, alistFind_cons, if_neg hk]
      exact ih h

theorem alistFind_alistRemove_self {α : Type} (l : List (String × α))
    (k : String) : alistFind (alistRemove l k) k = none := by
  induction l with
  | nil => simp
  | cons p rest ih =>
    obtain ⟨k₀, v₀⟩ := p
    by_cases hk : k₀ = k
    · simp [hk, ih]
    · simp [hk, ih]

theorem alistFind_alistRemove_other {α : Type} (l : List (String × α))
    (k k' : String) (hne : k' ≠ k) :
    alistFind (alistRemove l k) k' = alistFind l k' := by
  induction l with
  | nil => simp
  | cons p rest ih =>
    obtain ⟨k₀, v₀⟩ := p
    by_cases hk : k₀ = k
    · subst hk
      simp [Ne.symm hne, ih]
    · by_cases hk' : k₀ = k'
      · subst hk'
        simp [hk]
      · simp [hk, hk', ih]

theorem setAdd_mem_self (s : List String) (a : String) : a ∈ setAdd s a := by
  by_cases h : a ∈ s <;> simp [setAdd, h]

theorem setAdd_of_mem {s : List String} {a : String} (h : a ∈ s) :
    setAdd s a = s := by
  simp [setAdd, h]

theorem setAdd_ne_nil (s : List String) (a : String) : setAdd s a ≠ [] := by
  by_cases h : a ∈ s
  · simp only [setAdd, if_pos h]
    rintro rfl
    simp at h
  · simp [setAdd, h]

theorem setRemove_not_mem (s : List String) (a : String) :
    a ∉ setRemove s a := by
  simp [setRemove]

/-! ## Send and broadcast lemmas -/

theorem sendToClient_eq (st : WSState) (cid : String) (f : Json) :
    sendToClient st cid f
      = (canSend st cid, if canSend st cid then [(cid, f)] else []) := by
  unfold sendToClient canSend
  cases alistFind st.clients cid with
  | none => simp
  | some c => by_cases h1 : c.openConn <;> by_cases h2 : c.sendOk <;> simp [h1, h2]

theorem sendStep_eq (st : WSState) (f : Json) (n : Nat)
    (acc : List (String × Json)) (cid : String) :
    sendStep st f (n, acc) cid
      = (n + (if canSend st cid then 1 else 0),
         acc ++ (if canSend st cid then [(cid, f)] else [])) := by
  unfold sendStep
  rw [sendToClient_eq]

theorem sendFold (st : WSState) (f : Json) (l : List String) (n : Nat)
    (acc : List (String × Json)) :
    l.foldl (sendStep st f) (n, acc)
      = (n + (l.filter (fun c => canSend st c)).length,
         acc ++ (l.filter (fun c => canSend st c)).map (fun c => (c, f))) := by
  induction l generalizing n acc with
  | nil => simp
  | cons a l ih =>
    rw [List.foldl_cons, sendStep_eq]
    by_cases h : canSend st a
    · rw [if_pos h, if_pos h, ih]
      simp only [List.filter_cons, h, if_true, List.length_cons, List.map_cons,
        Prod.mk.injEq]
      exact ⟨by omega, by simp⟩
    · rw [if_neg h, if_neg h, ih]
      simp [List.filter_cons, h]

theorem broadcastToChannel_spec (st : WSState) (ch : String) (d : Json) :
    broadcastToChannel st ch d
      = ((wsDeliveries st ch d).length, wsDeliveries st ch d) := by
  unfold broadcastToChannel wsDeliveries channelMembers
  cases h : alistFind st.channels ch with
  | none => simp
  | some members => simp [sendFold]

/-! ## Channel map lemmas -/

theorem chanDel_of_none {chs : List (String × List String)} {ch : String}
    (cid : String) (h : alistFind chs ch = none) : chanDel chs ch cid = chs := by
  unfold chanDel
  rw [h]

theorem chanDel_of_some {chs : List (String × List String)} {ch : String}
    {s : List String} (cid : String) (h : alistFind chs ch = some s) :
    chanDel chs ch cid
      = if (setRemove s cid).isEmpty then alistRemove chs ch
        else alistSet chs ch (setRemove s cid) := by
  unfold chanDel
  rw [h]

theorem chanAdd_of_none {chs : List (String × List String)} {ch : String}
    (cid : String) (h : alistFind chs ch = none) :
    chanAdd chs ch cid = chs ++ [(ch, [cid])] := by
  unfold chanAdd
  rw [h]

theorem chanAdd_of_some {chs : List (String × List String)} {ch : String}
    {s : List String} (cid : String) (h : alistFind chs ch = some s) :
    chanAdd chs ch cid = alistSet chs ch (setAdd s cid) := by
  unfold chanAdd
  rw [h]

theorem chanDel_find_self (chs : List (String × List String)) (ch cid : String) :
    cid ∉ (alistFind (chanDel chs ch cid) ch).getD [] := by
  cases h : alistFind chs ch with
  | none => simp [chanDel_of_none cid h, h]
  | some s =>
    rw [chanDel_of_some cid h]
    by_cases he : (setRemove s cid).isEmpty
    · simp [he, alistFind_alistRemove_self]
    · rw [if_neg he, alistFind_alistSet_self, h]
      simpa using setRemove_not_mem s cid

theorem chanDel_find_other (chs : List (String × List String))
    (ch ch2 cid : String) (hne : ch2 ≠ ch) :
    alistFind (chanDel chs ch cid) ch2 = alistFind chs ch2 := by
  cases h : alistFind chs ch with
  | none => rw [chanDel_of_none cid h]
  | some s =>
    rw [chanDel_of_some cid h]
    by_cases he : (setRemove s cid).isEmpty
    · rw [if_pos he, alistFind_alistRemove_other _ _ _ hne]
    · rw [if_neg he, alistFind_alistSet_other _ _ _ _ hne]

theorem chanDel_not_mem_preserve {chs : List (String × List String)}
    {ch2 cid : String} (ch : String)
    (h : cid ∉ (alistFind chs ch2).getD []) :
    cid ∉ (alistFind (chanDel chs ch cid) ch2).getD [] := by
  by_cases he : ch2 = ch
  · subst he
    exact chanDel_find_self chs ch2 cid
  · rw [chanDel_find_other chs ch ch2 cid he]
    exact h

theorem foldDel_preserve (L : List String) (chs : List (String × List String))
    (cid ch : String) (h : cid ∉ (alistFind chs ch).getD []) :
    cid ∉ (alistFind (L.foldl (fun c a => chanDel c a cid) chs) ch).getD [] := by
  induction L generalizing chs with
  | nil => exact h
  | cons a L ih => exact ih _ (chanDel_not_mem_preserve a h)

theorem foldDel_removes (L : List String) (chs : List (String × List String))
    (cid ch : String) (h : ch ∈ L) :
    cid ∉ (alistFind (L.foldl (fun c a => chanDel c a cid) chs) ch).getD [] := by
  induction L generalizing chs with
  | nil => simp at h
  | cons a L ih =>
    rw [List.foldl_cons]
    rcases List.mem_cons.mp h with h' | h'
    · subst h'
      exact foldDel_preserve L _ cid ch (chanDel_find_self chs ch cid)
    · exact ih _ h'

theorem noEmpty_chanAdd {chs : List (String × List String)} (ch cid : String)
    (h : ∀ p ∈ chs, p.2 ≠ []) : ∀ p ∈ chanAdd chs ch cid, p.2 ≠ [] := by
  intro p hp
  cases hf : alistFind chs ch with
  | none =>
    rw [chanAdd_of_none cid hf] at hp
    rcases List.mem_append.mp hp with h' | h'
    · exact h p h'
    · simp only [List.mem_singleton] at h'
      subst h'
      simp
  | some s =>
    rw [chanAdd_of_some cid hf] at hp
    unfold alistSet at hp
    obtain ⟨q, hq, hq'⟩ := List.mem_map.mp hp
    by_cases he : q.1 = ch
    · rw [if_pos he] at hq'
      subst hq'
      exact setAdd_ne_nil s cid
    · rw [if_neg he] at hq'
      subst hq'
      exact h q hq

theorem noEmpty_chanDel {chs : List (String × List String)} (ch cid : String)
    (h : ∀ p ∈ chs, p.2 ≠ []) : ∀ p ∈ chanDel chs ch cid, p.2 ≠ [] := by
  intro p hp
  cases hf : alistFind chs ch with
  | none =>
    rw [chanDel_of_none cid hf] at hp
    exact h p hp
  | some s =>
    rw [chanDel_of_some cid hf] at hp
    by_cases he : (setRemove s cid).isEmpty
    · rw [if_pos he] at hp
      exact h p (List.mem_of_mem_filter hp)
    · rw [if_neg he] at hp
      unfold alistSet at hp
      obtain ⟨q, hq, hq'⟩ := List.mem_map.mp hp
      by_cases hqc : q.1 = ch
      · rw [if_pos hqc] at hq'
        subst hq'
        simpa [List.isEmpty_iff] using he
      · rw [if_neg hqc] at hq'
        subst hq'
        exact h q hq

theorem noEmpty_foldDel (L : List String) (chs : List (String × List String))
    (cid : String) (h : ∀ p ∈ chs, p.2 ≠ []) :
    ∀ p ∈ L.foldl (fun c a => chanDel c a cid) chs, p.2 ≠ [] := by
  induction L generalizing chs with
  | nil => exact h
  | cons a L ih => exact ih _ (noEmpty_chanDel a cid h)

/-! ## Counting lemmas -/

@[simp]
theorem countOcc_nil {α : Type} [DecidableEq α] (a : α) :
    countOcc ([] : List α) a = 0 := rfl

@[simp]
theorem countOcc_cons {α : Type} [DecidableEq α] (x : α) (xs : List α) (a : α) :
    countOcc (x :: xs) a = (if x = a then 1 else 0) + countOcc xs a := rfl

theorem countOcc_filter {α : Type} [DecidableEq α] (l : List α) (q : α → Bool)
    (a : α) : countOcc (l.filter q) a = if q a then countOcc l a else 0 := by
  induction l with
  | nil => simp
  | cons x xs ih =>
    rw [List.filter_cons]
    by_cases hx : x = a
    · subst hx
      by_cases hq : q x <;> simp [hq, ih]
    · by_cases hq : q x <;> simp [hq, hx, ih]

/-! ## Subscription idempotence lemmas -/

theorem alistSet_append {α : Type} (l l' : List (String × α)) (k : String)
    (v : α) : alistSet (l ++ l') k v = alistSet l k v ++ alistSet l' k v := by
  simp [alistSet]

theorem chanAdd_chanAdd (chs : List (String × List String)) (ch cid : String) :
    chanAdd (chanAdd chs ch cid) ch cid = chanAdd chs ch cid := by
  cases h : alistFind chs ch with
  | none =>
    rw [chanAdd_of_none cid h]
    have hf : alistFind (chs ++ [(ch, [cid])]) ch = some [cid] := by
      rw [alistFind_append_of_none _ _ _ h]
      simp
    rw [chanAdd_of_some cid hf, setAdd_of_mem (by simp), alistSet_append,
      alistSet_of_find_none _ _ _ h]
    simp
  | some s =>
    rw [chanAdd_of_some cid h]
    have hf : alistFind (alistSet chs ch (setAdd s cid)) ch = some (setAdd s cid) := by
      rw [alistFind_alistSet_self, h, Option.map_some']
    rw [chanAdd_of_some cid hf, setAdd_of_mem (setAdd_mem_self s cid),
      alistSet_alistSet_self]

/-! ## Delivery shape lemmas -/

theorem mkDelivery_body (hmac : String → String → String) (w : Webhook)
    (event ts : String) (data : Json) :
    (mkDelivery hmac w event ts data).body = (payloadJson event ts data).stringify := rfl

theorem mkDelivery_headers_event (hmac : String → String → String) (w : Webhook)
    (event ts : String) (data : Json) :
    headerValue (mkDelivery hmac w event ts data).headers "X-ZeroERP-Event"
      = some event := by
  unfold mkDelivery headerValue
  simp only [List.cons_append, List.nil_append, alistFind_cons]
  simp

theorem mkDelivery_headers_timestamp (hmac : String → String → String)
    (w : Webhook) (event ts : String) (data : Json) :
    headerValue (mkDelivery hmac w event ts data).headers "X-ZeroERP-Timestamp"
      = some ts := by
  unfold mkDelivery headerValue
  simp only [List.cons_append, List.nil_append, alistFind_cons]
  simp

theorem mkDelivery_headers_sig (hmac : String → String → String) (w : Webhook)
    (event ts : String) (data : Json) (h : w.secret ≠ "") :
    headerValue (mkDelivery hmac w event ts data).headers "X-ZeroERP-Signature"
      = some (hmac w.secret (payloadJson event ts data).stringify) := by
  simp [mkDelivery, headerValue, generateWebhookSignature, alistFind, h]

theorem mkDelivery_headers_sig_none (hmac : String → String → String)
    (w : Webhook) (event ts : String) (data : Json) (h : w.secret = "") :
    headerValue (mkDelivery hmac w event ts data).headers "X-ZeroERP-Signature"
      = none := by
  simp [mkDelivery, headerValue, alistFind, h]

theorem mem_triggerWebhooks {hmac : String → String → String}
    {reg : List Webhook} {ts event : String} {data : Json} {w : Webhook}
    {d : Delivery} (h : (w, d) ∈ triggerWebhooks hmac reg ts event data) :
    d = mkDelivery hmac w event ts data ∧ w ∈ reg ∧ w.events.contains event := by
  unfold triggerWebhooks at h
  obtain ⟨w', hw', heq⟩ := List.mem_map.mp h
  obtain ⟨rfl, rfl⟩ := Prod.mk.injEq .. ▸ heq
  have := List.mem_filter.mp hw'
  exact ⟨rfl, this.1, this.2⟩

theorem mem_emitEvent {hmac : String → String → String} {reg : List Webhook}
    {ts event : String} {data : Json} {w : Webhook} {d : Delivery}
    (h : (w, d) ∈ emitEvent hmac reg ts event data) :
    d = mkDelivery hmac w event ts data ∧ w ∈ reg ∧ w.events.contains event := by
  unfold emitEvent at h
  by_cases hk : isKnownEvent event
  · rw [if_pos hk] at h
    exact mem_triggerWebhooks h
  · rw [if_neg hk] at h
    simp at h

theorem broadcastEvent_sends (st : WSState) (eventType : String)
    (eventData : Json) (ts : String) :
    (broadcastEvent st eventType eventData ts).2.2.2
      = wsDeliveries st eventType (eventMessage eventType eventData ts)
        ++ wsDeliveries st "all-events" (eventMessage eventType eventData ts) := by
  simp [broadcastEvent, broadcastToChannel_spec]

/-! ## Frame helper lemmas -/

theorem frameType_errorFrame (msg : String) :
    frameType (errorFrame msg) = some "error" := rfl

theorem errorOut_frames (st : WSState) (cid msg : String) :
    ∀ f ∈ (sendToClient st cid (errorFrame msg)).2,
      f.1 = cid ∧ frameType f.2 = some "error" := by
  intro f hf
  rw [sendToClient_eq] at hf
  by_cases hcs : canSend st cid
  · simp only [hcs, if_true] at hf
    obtain rfl := List.mem_singleton.mp hf
    exact ⟨rfl, rfl⟩
  · simp [hcs] at hf

/-- C9: Subscribing the same connection to the same channel a second time
is idempotent: the whole registry state is unchanged by the repeated
subscribe, and in particular every channel's membership set, its size, and
the connection's client record (hence its subscription set) are the same
after the second subscribe as after the first. -/
theorem subscribe_idempotent (st : WSState) (cid : String) (ch : Option String)
    (ts ts' : String) :
    (handleSubscribe (handleSubscribe st cid ch ts).1 cid ch ts').1
      = (handleSubscribe st cid ch ts).1
    ∧ (∀ q, channelMembers
          (handleSubscribe (handleSubscribe st cid ch ts).1 cid ch ts').1 q
        = channelMembers (handleSubscribe st cid ch ts).1 q)
    ∧ (∀ q, (channelMembers
          (handleSubscribe (handleSubscribe st cid ch ts).1 cid ch ts').1 q).length
        = (channelMembers (handleSubscribe st cid ch ts).1 q).length)
    ∧ alistFind
          (handleSubscribe (handleSubscribe st cid ch ts).1 cid ch ts').1.clients
          cid
        = alistFind (handleSubscribe st cid ch ts).1.clients cid := by
  have hst : (handleSubscribe (handleSubscribe st cid ch ts).1 cid ch ts').1
      = (handleSubscribe st cid ch ts).1 := by
    cases hch : jsTruthyStr ch with
    | none => simp [handleSubscribe, hch]
    | some c =>
      cases hcl : alistFind st.clients cid with
      | none => simp [handleSubscribe, hch, hcl]
      | some client =>
        have hset : setAdd (setAdd client.subscriptions c) c
            = setAdd client.subscriptions c := setAdd_of_mem (setAdd_mem_self _ _)
        have h2 : alistFind (alistSet st.clients cid
              { client with subscriptions := setAdd client.subscriptions c }) cid
            = some { client with subscriptions := setAdd client.subscriptions c } := by
          rw [alistFind_alistSet_self, hcl, Option.map_some']
        simp only [handleSubscribe, hch, hcl, h2]
        rw [alistSet_alistSet_self, hset, chanAdd_chanAdd]
  exact ⟨hst, fun q => by rw [hst], fun q => by rw [hst], by rw [hst]⟩

/-- Witness for `subscribe_idempotent` at a concrete state: after `c2`
subscribes to `order.created` its membership has two ids, and a repeated
subscribe leaves the state equal to the state after the first. -/
theorem subscribe_idempotent_witness :
    (handleSubscribe (handleSubscribe wsOne "c2" (some "order.created") "T1").1
        "c2" (some "order.created") "T2").1
      = (handleSubscribe wsOne "c2" (some "order.created") "T1").1
    ∧ (channelMembers (handleSubscribe wsOne "c2" (some "order.created") "T1").1
        "order.created").length = 2 :=
  ⟨(subscribe_idempotent wsOne "c2" (some "order.created") "T1" "T2").1, rfl⟩

/-- C10: The outbound send path is total: broadcasting to a channel with no
subscribers returns a sent count of 0 with no sends and no state change,
sending to an unknown connection id or a connection whose socket is not
open returns `false` instead of raising, and the broadcast return value
counts exactly the sends that succeeded. -/
theorem send_path_total (st : WSState) (ch : String) (d : Json) (cid : String)
    (f : Json) :
    (alistFind st.channels ch = none → broadcastToChannel st ch d = (0, []))
    ∧ (alistFind st.clients cid = none → sendToClient st cid f = (false, []))
    ∧ (∀ c, alistFind st.clients cid = some c → c.openConn = false →
        sendToClient st cid f = (false, []))
    ∧ (broadcastToChannel st ch d).1 = (broadcastToChannel st ch d).2.length := by
  refine ⟨?_, ?_, ?_, ?_⟩
  · intro h
    unfold broadcastToChannel
    rw [h]
  · intro h
    unfold sendToClient
    rw [h]
  · intro c hc ho
    unfold sendToClient
    rw [hc]
    simp [ho]
  · rw [broadcastToChannel_spec]

/-- Witness for `send_path_total` at a concrete state: an absent channel
broadcasts to nobody and an unknown client id cannot be sent to. -/
theorem send_path_total_witness :
    broadcastToChannel wsOne "nochan" (Json.str "d") = (0, [])
    ∧ sendToClient wsOne "ghost" (Json.str "f") = (false, []) :=
  ⟨(send_path_total wsOne "nochan" (Json.str "d") "ghost" (Json.str "f")).1 rfl,
   (send_path_total wsOne "nochan" (Json.str "d") "ghost" (Json.str "f")).2.1 rfl⟩

/-- C8 counterexample: the frame `{type: "unsubscribe"}` without a
`payload.channel` is not one of the recognized shapes, the sender is a
live, sendable client, yet the handler returns silently — no `error` frame
is sent — so the claim that every unrecognized message yields an error
frame to the sender is false on the code. -/
theorem malformed_unsubscribe_silent :
    recognizedShape (some mUnsub) = false
    ∧ canSend wsOne "c1" = true
    ∧ handleRaw wsOne "c1" (some mUnsub) "T1" 0 = (wsOne, []) :=
  ⟨rfl, rfl, rfl⟩

/-- C8 (amended): any inbound frame that fails to parse as one of the
recognized shapes leaves the connection registry and channel state
unchanged and the connection open, and every frame sent in response goes to
that sender only and is an `error` frame; moreover the split is exact:
unparseable JSON, an unknown type, and `subscribe` without a channel are
answered with precisely one error frame to the sender (delivered whenever
the sender's socket is open and accepts the send), while `unsubscribe` or
`broadcast` with missing fields are silently ignored with no response at
all. -/
theorem malformed_message_handling (st : WSState) (cid : String)
    (raw : Option ClientMessage) (ts : String) (now : Int)
    (h : recognizedShape raw = false) :
    (handleRaw st cid raw ts now).1 = st
    ∧ (∀ f ∈ (handleRaw st cid raw ts now).2,
        f.1 = cid ∧ frameType f.2 = some "error")
    ∧ (raw = none →
        (handleRaw st cid raw ts now).2
          = if canSend st cid
            then [(cid, errorFrame "Invalid message format. Expected JSON.")]
            else [])
    ∧ (∀ m, raw = some m → m.type = "subscribe" →
        (handleRaw st cid raw ts now).2
          = if canSend st cid
            then [(cid, errorFrame "Channel name required for subscription")]
            else [])
    ∧ (∀ m, raw = some m → (m.type = "unsubscribe" ∨ m.type = "broadcast") →
        (handleRaw st cid raw ts now).2 = [])
    ∧ (∀ m, raw = some m → m.type ≠ "subscribe" → m.type ≠ "unsubscribe" →
        m.type ≠ "ping" → m.type ≠ "broadcast" →
        (handleRaw st cid raw ts now).2
          = if canSend st cid
            then [(cid, errorFrame ("Unknown message type: " ++ m.type))]
            else []) := by
  cases raw with
  | none =>
    refine ⟨rfl, errorOut_frames st cid _, ?_, ?_, ?_, ?_⟩
    · intro _
      show (sendToClient st cid
          (errorFrame "Invalid message format. Expected JSON.")).2 = _
      rw [sendToClient_eq]
    · intro m hm
      exact Option.noConfusion hm
    · intro m hm _
      exact Option.noConfusion hm
    · intro m hm _ _ _ _
      exact Option.noConfusion hm
  | some m =>
    simp only [recognizedShape] at h
    rw [show handleRaw st cid (some m) ts now = handleMessage st cid m ts now from rfl]
    unfold handleMessage
    by_cases h1 : m.type = "subscribe"
    · rw [if_pos h1] at h
      have hch : jsTruthyStr m.channel = none :=
        Option.not_isSome_iff_eq_none.mp (by simp [h])
      rw [if_pos h1]
      unfold handleSubscribe
      rw [hch]
      refine ⟨rfl, errorOut_frames st cid _, ?_, ?_, ?_, ?_⟩
      · intro hm
        exact Option.noConfusion hm
      · intro m' hm' _
        show (sendToClient st cid
            (errorFrame "Channel name required for subscription")).2 = _
        rw [sendToClient_eq]
      · intro m' hm' hty
        obtain rfl := Option.some.inj hm'
        rcases hty with hty | hty
        · rw [h1] at hty
          exact absurd hty (by decide)
        · rw [h1] at hty
          exact absurd hty (by decide)
      · intro m' hm' hne _ _ _
        obtain rfl := Option.some.inj hm'
        exact absurd h1 hne
    · rw [if_neg h1] at h
      rw [if_neg h1]
      by_cases h2 : m.type = "unsubscribe"
      · rw [if_pos h2] at h
        have hch : jsTruthyStr m.channel = none :=
          Option.not_isSome_iff_eq_none.mp (by simp [h])
        rw [if_pos h2]
        unfold handleUnsubscribe
        rw [hch]
        refine ⟨rfl, ?_, ?_, ?_, ?_, ?_⟩
        · intro f hf
          simp at hf
        · intro hm
          exact Option.noConfusion hm
        · intro m' hm' hty
          obtain rfl := Option.some.inj hm'
          rw [h2] at hty
          exact absurd hty (by decide)
        · intro m' hm' _
          rfl
        · intro m' hm' _ hne _ _
          obtain rfl := Option.some.inj hm'
          exact absurd h2 hne
      · rw [if_neg h2] at h
        rw [if_neg h2]
        by_cases h3 : m.type = "ping"
        · rw [if_pos h3] at h
          simp at h
        · rw [if_neg h3] at h
          rw [if_neg h3]
          by_cases h4 : m.type = "broadcast"
          · rw [if_pos h4] at h
            rw [if_pos h4, if_neg (by simp [h])]
            refine ⟨rfl, ?_, ?_, ?_, ?_, ?_⟩
            · intro f hf
              simp at hf
            · intro hm
              exact Option.noConfusion hm
            · intro m' hm' hty
              obtain rfl := Option.some.inj hm'
              rw [h4] at hty
              exact absurd hty (by decide)
            · intro m' hm' _
              rfl
            · intro m' hm' _ _ _ hne
              obtain rfl := Option.some.inj hm'
              exact absurd h4 hne
          · rw [if_neg h4]
            refine ⟨rfl, errorOut_frames st cid _, ?_, ?_, ?_, ?_⟩
            · intro hm
              exact Option.noConfusion hm
            · intro m' hm' hty
              obtain rfl := Option.some.inj hm'
              exact absurd hty h1
            · intro m' hm' hty
              obtain rfl := Option.some.inj hm'
              rcases hty with hty | hty
              · exact absurd hty h2
              · exact absurd hty h4
            · intro m' hm' _ _ _ _
              obtain rfl := Option.some.inj hm'
              show (sendToClient st cid
                  (errorFrame ("Unknown message type: " ++ m.type))).2 = _
              rw [sendToClient_eq]

/-- Witness for `malformed_message_handling`: an unparseable frame at a
live client leaves the concrete state unchanged and is answered with
exactly the invalid-format error frame. -/
theorem malformed_message_handling_witness :
    recognizedShape none = false
    ∧ (handleRaw wsOne "c1" none "T1" 0).1 = wsOne
    ∧ (handleRaw wsOne "c1" none "T1" 0).2
        = [("c1", errorFrame "Invalid message format. Expected JSON.")] :=
  ⟨rfl,
   (malformed_message_handling wsOne "c1" none "T1" 0 rfl).1,
   ((malformed_message_handling wsOne "c1" none "T1" 0 rfl).2.2.1 rfl).trans rfl⟩

/-! ## Invariant lemmas for the connection registry -/

theorem noEmptyCheck_iff (st : WSState) :
    noEmptyCheck st = true ↔ ∀ p ∈ st.channels, p.2 ≠ [] := by
  simp [noEmptyCheck, List.all_eq_true]

theorem memberSubCheck_spec {st : WSState} (h : memberSubCheck st = true)
    {ch : String} {s : List String} (hs : alistFind st.channels ch = some s)
    {c : String} (hc : c ∈ s) :
    ∃ cl, alistFind st.clients c = some cl ∧ ch ∈ cl.subscriptions := by
  have hp := alistFind_mem hs
  rw [memberSubCheck, List.all_eq_true] at h
  have h2 := h _ hp
  rw [List.all_eq_true] at h2
  have h3 := h2 _ hc
  cases hcl : alistFind st.clients c with
  | none =>
    rw [hcl] at h3
    simp at h3
  | some cl =>
    rw [hcl] at h3
    simp at h3
    exact ⟨cl, rfl, h3⟩

/-- C7: Removing a connection deletes its id from the subscriber set of
every channel (under the two-sided consistency of the subscription maps
that the operations maintain), and each of subscribe, unsubscribe and
disconnect preserves the invariant that no channel with an empty subscriber
set remains in the channel map — so an emptied channel is absent from
subsequent `channelMembers` queries. -/
theorem disconnect_cleans_channels (st : WSState) (cid ch : String)
    (o : Option String) (ts : String) :
    (memberSubCheck st = true → cid ∉ channelMembers (handleDisconnect st cid) ch)
    ∧ (noEmptyCheck st = true →
        noEmptyCheck (handleDisconnect st cid) = true
        ∧ noEmptyCheck (handleSubscribe st cid o ts).1 = true
        ∧ noEmptyCheck (handleUnsubscribe st cid o).1 = true) := by
  constructor
  · intro hms
    unfold handleDisconnect
    cases hcl : alistFind st.clients cid with
    | none =>
      unfold channelMembers
      cases hchf : alistFind st.channels ch with
      | none => simp
      | some s =>
        simp only [Option.getD_some]
        intro hc
        obtain ⟨cl, hcl', -⟩ := memberSubCheck_spec hms hchf hc
        rw [hcl] at hcl'
        cases hcl'
    | some client =>
      unfold channelMembers
      by_cases hsub : ch ∈ client.subscriptions
      · exact foldDel_removes _ _ _ _ hsub
      · have hinit : cid ∉ (alistFind st.channels ch).getD [] := by
          cases hchf : alistFind st.channels ch with
          | none => simp
          | some s =>
            simp only [Option.getD_some]
            intro hc
            obtain ⟨cl, hcl', hchsub⟩ := memberSubCheck_spec hms hchf hc
            rw [hcl] at hcl'
            obtain rfl := Option.some.inj hcl'
            exact hsub hchsub
        exact foldDel_preserve _ _ _ _ hinit
  · intro hne
    have hprop := (noEmptyCheck_iff st).mp hne
    refine ⟨?_, ?_, ?_⟩
    · unfold handleDisconnect
      cases hcl : alistFind st.clients cid with
      | none => exact hne
      | some client =>
        exact (noEmptyCheck_iff _).mpr (noEmpty_foldDel _ _ _ hprop)
    · unfold handleSubscribe
      cases hch : jsTruthyStr o with
      | none => exact hne
      | some c =>
        cases hcl : alistFind st.clients cid with
        | none => exact hne
        | some client =>
          exact (noEmptyCheck_iff _).mpr (noEmpty_chanAdd _ _ hprop)
    · unfold handleUnsubscribe
      cases hch : jsTruthyStr o with
      | none => exact hne
      | some c =>
        cases hcl : alistFind st.clients cid with
        | none => exact hne
        | some client =>
          exact (noEmptyCheck_iff _).mpr (noEmpty_chanDel _ _ hprop)

/-- Witness for `disconnect_cleans_channels` at a concrete state: removing
`c1` empties and deletes the `order.created` channel. -/
theorem disconnect_cleans_channels_witness :
    memberSubCheck wsOne = true ∧ noEmptyCheck wsOne = true
    ∧ "c1" ∉ channelMembers (handleDisconnect wsOne "c1") "order.created"
    ∧ noEmptyCheck (handleDisconnect wsOne "c1") = true :=
  ⟨by decide, by decide,
   (disconnect_cleans_channels wsOne "c1" "order.created" none "T").1 (by decide),
   ((disconnect_cleans_channels wsOne "c1" "order.created" none "T").2 (by decide)).1⟩

/-! ## Webhook claim theorems -/

theorem memOrderAttempt :
    (wOrder, mkDelivery hmacStub wOrder "order.created" "T1" (Json.str "x"))
      ∈ emitEvent hmacStub regTwo "T1" "order.created" (Json.str "x") := by
  have h : emitEvent hmacStub regTwo "T1" "order.created" (Json.str "x")
      = [(wOrder, mkDelivery hmacStub wOrder "order.created" "T1" (Json.str "x"))] :=
    rfl
  rw [h]
  exact List.mem_cons_self _ _

/-- C1 counterexample: with a webhook subscriber registered for
`order.created` and a live realtime client subscribed to the
`order.created` channel, one `emitEvent` call produces only HTTP posts and
no WebSocket send at all — even though `broadcastEvent` on the same state
would deliver one frame — so the claim that `emit` also causes the Realtime
Event Bridge to publish is false on the code: `src/server/index.js` never
invokes the bridge. -/
theorem emit_produces_no_realtime_send :
    (emitActions hmacStub regTwo "T1" "order.created" (Json.str "p")).filter
        Effect.isWsSend = []
    ∧ "c1" ∈ channelMembers wsOne "order.created"
    ∧ (broadcastEvent wsOne "order.created" (Json.str "p") "T1").2.2.2.length = 1 :=
  ⟨rfl, by decide, rfl⟩

/-- C1 (amended): for a valid event name, `emit` triggers the Webhook
Dispatcher — one HTTP post per matching subscriber and no realtime send —
while the Realtime Event Bridge function `broadcastEvent`, when it is
called, publishes the `{event, data, timestamp}` message to the
event-specific channel and to the synthetic `all-events` channel; but the
two are not wired together: `emit` never invokes the bridge. -/
theorem emit_and_bridge_behavior (hmac : String → String → String)
    (reg : List Webhook) (ts event : String) (data : Json) (st : WSState)
    (h : isKnownEvent event = true) :
    (emitActions hmac reg ts event data).length
        = (reg.filter (fun w => w.events.contains event)).length
    ∧ (∀ a ∈ emitActions hmac reg ts event data, a.isWsSend = false)
    ∧ (broadcastEvent st event data ts).2.2.2
        = wsDeliveries st event (eventMessage event data ts)
          ++ wsDeliveries st "all-events" (eventMessage event data ts) := by
  refine ⟨?_, ?_, broadcastEvent_sends st event data ts⟩
  · unfold emitActions emitEvent
    rw [if_pos h]
    unfold triggerWebhooks
    simp
  · intro a ha
    unfold emitActions at ha
    obtain ⟨p, hp, rfl⟩ := List.mem_map.mp ha
    rfl

/-- Witness for `emit_and_bridge_behavior` at concrete inputs. -/
theorem emit_and_bridge_behavior_witness :
    isKnownEvent "order.created" = true
    ∧ (emitActions hmacStub regTwo "T1" "order.created" (Json.str "p")).length
        = (regTwo.filter (fun w => w.events.contains "order.created")).length
    ∧ (broadcastEvent wsOne "order.created" (Json.str "p") "T1").2.2.2
        = wsDeliveries wsOne "order.created"
            (eventMessage "order.created" (Json.str "p") "T1")
          ++ wsDeliveries wsOne "all-events"
            (eventMessage "order.created" (Json.str "p") "T1") :=
  ⟨by decide,
   (emit_and_bridge_behavior hmacStub regTwo "T1" "order.created" (Json.str "p")
      wsOne (by decide)).1,
   (emit_and_bridge_behavior hmacStub regTwo "T1" "order.created" (Json.str "p")
      wsOne (by decide)).2.2⟩

/-- C2: for every delivery of the dispatcher path, and for the test-path
delivery, when the subscriber has a secret the `X-ZeroERP-Signature` header
equals the HMAC, under that secret, of the exact byte sequence sent as the
request body — for any HMAC function, so in particular for HMAC-SHA256 —
hence a receiver recomputing the HMAC over the transmitted body obtains the
header value. -/
theorem signature_matches_transmitted_body (hmac : String → String → String)
    (reg : List Webhook) (ts event : String) (data : Json) (w : Webhook)
    (d : Delivery) :
    ((w, d) ∈ emitEvent hmac reg ts event data → w.secret ≠ "" →
      headerValue d.headers "X-ZeroERP-Signature" = some (hmac w.secret d.body))
    ∧ (w.secret ≠ "" →
      headerValue (mkDelivery hmac w "test" ts testData).headers
          "X-ZeroERP-Signature"
        = some (hmac w.secret (mkDelivery hmac w "test" ts testData).body)) := by
  constructor
  · intro hm hs
    obtain ⟨rfl, -, -⟩ := mem_emitEvent hm
    rw [mkDelivery_headers_sig hmac w event ts data hs, mkDelivery_body]
  · intro hs
    rw [mkDelivery_headers_sig hmac w "test" ts testData hs, mkDelivery_body]

/-- Witness for `signature_matches_transmitted_body` on a concrete
registry, event and delivery. -/
theorem signature_matches_transmitted_body_witness :
    wOrder.secret ≠ ""
    ∧ headerValue (mkDelivery hmacStub wOrder "order.created" "T1"
          (Json.str "x")).headers "X-ZeroERP-Signature"
        = some (hmacStub wOrder.secret
            (mkDelivery hmacStub wOrder "order.created" "T1" (Json.str "x")).body) :=
  ⟨by decide,
   (signature_matches_transmitted_body hmacStub regTwo "T1" "order.created"
      (Json.str "x") wOrder _).1 memOrderAttempt (by decide)⟩

theorem mkDelivery_headers_ctype (hmac : String → String → String) (w : Webhook)
    (event ts : String) (data : Json) :
    headerValue (mkDelivery hmac w event ts data).headers "Content-Type"
      = some "application/json" := by
  simp [mkDelivery, headerValue, alistFind]

/-- C3: with a valid event name, one `emit` call produces exactly one
delivery attempt per registered subscriber whose `events` set contains the
event (counted per occurrence of the subscriber record in the registry),
zero attempts for every subscriber whose `events` set does not contain it,
each attempt addressed to that subscriber's URL; an event with no matching
subscribers produces no attempts and no error. -/
theorem delivery_attempts_exactly_once (hmac : String → String → String)
    (reg : List Webhook) (ts event : String) (data : Json) (w : Webhook)
    (h : isKnownEvent event = true) :
    countOcc ((emitEvent hmac reg ts event data).map Prod.fst) w
        = (if w.events.contains event then countOcc reg w else 0)
    ∧ (∀ p ∈ emitEvent hmac reg ts event data, p.2.url = p.1.url)
    ∧ (reg.filter (fun w' => w'.events.contains event) = [] →
        emitEvent hmac reg ts event data = []) := by
  refine ⟨?_, ?_, ?_⟩
  · unfold emitEvent
    rw [if_pos h]
    unfold triggerWebhooks
    rw [List.map_map]
    have hcomp : (Prod.fst ∘ fun w' => (w', mkDelivery hmac w' event ts data))
        = id := rfl
    rw [hcomp, List.map_id]
    exact countOcc_filter reg _ w
  · intro p hp
    obtain ⟨pw, pd⟩ := p
    obtain ⟨rfl, -, -⟩ := mem_emitEvent hp
    rfl
  · intro hf
    unfold emitEvent
    rw [if_pos h]
    unfold triggerWebhooks
    rw [hf]
    rfl

/-- Witness for `delivery_attempts_exactly_once`: in the two-subscriber
registry an `order.created` emit reaches the order subscriber exactly once
and the inventory-only subscriber not at all. -/
theorem delivery_attempts_exactly_once_witness :
    isKnownEvent "order.created" = true
    ∧ countOcc ((emitEvent hmacStub regTwo "T1" "order.created"
          (Json.str "x")).map Prod.fst) wOrder = 1
    ∧ countOcc ((emitEvent hmacStub regTwo "T1" "order.created"
          (Json.str "x")).map Prod.fst) wInv = 0 :=
  ⟨by decide,
   ((delivery_attempts_exactly_once hmacStub regTwo "T1" "order.created"
        (Json.str "x") wOrder (by decide)).1).trans (by decide),
   ((delivery_attempts_exactly_once hmacStub regTwo "T1" "order.created"
        (Json.str "x") wInv (by decide)).1).trans (by decide)⟩

theorem registerWebhook_some (req : RegisterRequest) (reg : List Webhook)
    (genId genSecret ts : String) (evs : List String) (hu : ¬req.url = "")
    (hev : req.events = some evs) :
    registerWebhook req reg genId genSecret ts
      = (if (evs.filter (fun e => !(isKnownEvent e))).isEmpty then
          Except.ok (mkStoredWebhook req genId genSecret ts evs,
            reg ++ [mkStoredWebhook req genId genSecret ts evs])
        else Except.error ("Invalid events: "
          ++ String.intercalate ", " (evs.filter (fun e => !(isKnownEvent e))))) := by
  unfold registerWebhook
  rw [if_neg hu, hev]

/-- C4 counterexample: registration with a non-empty URL and an *empty*
events array succeeds — the handler checks only that `events` is an array
of recognized names, never that it is non-empty — and stores a subscriber
whose `events` set is empty, so the claim that such a call fails with
`InvalidInput` (and the non-empty invariant) is false on the code. -/
theorem register_accepts_empty_events :
    registerWebhook reqEmptyEvents [] "gid" "gsec" "T0"
      = .ok (wEmptyStored, [wEmptyStored])
    ∧ wEmptyStored.events = [] :=
  ⟨rfl, rfl⟩

/-- C4 (amended): `register` fails when the URL is empty or missing, when
`events` is missing or not an array, or when `events` contains an
unrecognized event name — but an empty `events` array is accepted; on every
success the stored subscriber has only recognized event names (its `events`
set may be empty), carries the generated id and the request URL, and is
appended as a new record to the registry. -/
theorem register_validation (req : RegisterRequest) (reg : List Webhook)
    (genId genSecret ts : String) :
    (req.url = "" → exceptOk (registerWebhook req reg genId genSecret ts) = false)
    ∧ (req.events = none →
        exceptOk (registerWebhook req reg genId genSecret ts) = false)
    ∧ (∀ evs, req.events = some evs → (∃ e ∈ evs, isKnownEvent e = false) →
        exceptOk (registerWebhook req reg genId genSecret ts) = false)
    ∧ (∀ w reg', registerWebhook req reg genId genSecret ts = .ok (w, reg') →
        (∀ e ∈ w.events, isKnownEvent e = true) ∧ w.id = genId
        ∧ w.url = req.url ∧ reg' = reg ++ [w]) := by
  refine ⟨?_, ?_, ?_, ?_⟩
  · intro h
    unfold registerWebhook
    rw [if_pos h]
    rfl
  · intro h
    by_cases hu : req.url = ""
    · unfold registerWebhook
      rw [if_pos hu]
      rfl
    · unfold registerWebhook
      rw [if_neg hu, h]
      rfl
  · intro evs hevs ⟨e, he, hke⟩
    by_cases hu : req.url = ""
    · unfold registerWebhook
      rw [if_pos hu]
      rfl
    · have hmem : e ∈ evs.filter (fun x => !(isKnownEvent x)) :=
        List.mem_filter.mpr ⟨he, by simp [hke]⟩
      have hni : ¬((evs.filter (fun x => !(isKnownEvent x))).isEmpty = true) := by
        rw [List.isEmpty_iff]
        intro hnil
        rw [hnil] at hmem
        simp at hmem
      rw [registerWebhook_some req reg genId genSecret ts evs hu hevs,
        if_neg hni]
      rfl
  · intro w reg' hok
    by_cases hu : req.url = ""
    · unfold registerWebhook at hok
      rw [if_pos hu] at hok
      exact Except.noConfusion hok
    · cases hev : req.events with
      | none =>
        unfold registerWebhook at hok
        rw [if_neg hu, hev] at hok
        exact Except.noConfusion hok
      | some evs =>
        rw [registerWebhook_some req reg genId genSecret ts evs hu hev] at hok
        by_cases hinv : (evs.filter (fun e => !(isKnownEvent e))).isEmpty
        · rw [if_pos hinv] at hok
          have hpair := Except.ok.inj hok
          obtain ⟨h1, h2⟩ := Prod.ext_iff.mp hpair
          simp only at h1 h2
          subst h1
          refine ⟨?_, rfl, rfl, h2.symm⟩
          have hall := List.filter_eq_nil_iff.mp (List.isEmpty_iff.mp hinv)
          intro e he
          have := hall e he
          simpa using this
        · rw [if_neg hinv] at hok
          exact Except.noConfusion hok

/-- Witness for `register_validation`: an empty URL and an unrecognized
event name are both rejected. -/
theorem register_validation_witness :
    exceptOk (registerWebhook reqNoUrl [] "g" "s" "T") = false
    ∧ exceptOk (registerWebhook reqBadEvent [] "g" "s" "T") = false :=
  ⟨(register_validation reqNoUrl [] "g" "s" "T").1 rfl,
   (register_validation reqBadEvent [] "g" "s" "T").2.2.1 ["nope"] rfl
     ⟨"nope", by decide, by decide⟩⟩

theorem testWebhook_found (net : Delivery → FetchResult)
    (hmac : String → String → String) (reg : List Webhook) (wid ts : String)
    (w : Webhook) (hfind : reg.find? (fun w' => w'.id == wid) = some w) :
    testWebhook net hmac reg wid ts
      = match net (mkDelivery hmac w "test" ts testData) with
        | .http s =>
            Except.ok
              { success := statusOk s
              , statusCode := some s
              , errorMsg := none
              , message :=
                  if statusOk s then "Test webhook delivered successfully"
                  else "Webhook delivery failed" }
        | .netError m =>
            Except.ok
              { success := false
              , statusCode := none
              , errorMsg := some m
              , message := "Failed to deliver test webhook" } := by
  unfold testWebhook
  rw [hfind]

/-- C5: a delivery outcome — success, non-2xx status, or network error —
feeds only the logger: the attempt list of a dispatch is identical under
any two outcome oracles (nothing is raised to the caller of `emit` and no
attempt is retried), every attempt produces exactly one log entry, and the
user-initiated test path performs one awaited delivery and returns the
outcome (success flag plus status code or error message) as an `ok` result
value to its caller instead of throwing. -/
theorem delivery_failure_only_logged (net net' : Delivery → FetchResult)
    (hmac : String → String → String) (reg : List Webhook) (ts event : String)
    (data : Json) (wid : String) (w : Webhook) :
    (dispatchWebhooks net hmac reg ts event data).1
        = (dispatchWebhooks net' hmac reg ts event data).1
    ∧ (dispatchWebhooks net hmac reg ts event data).2.length
        = (dispatchWebhooks net hmac reg ts event data).1.length
    ∧ (reg.find? (fun w' => w'.id == wid) = some w →
        (∀ s, net (mkDelivery hmac w "test" ts testData) = FetchResult.http s →
          testWebhook net hmac reg wid ts
            = Except.ok
                { success := statusOk s
                , statusCode := some s
                , errorMsg := none
                , message :=
                    if statusOk s then "Test webhook delivered successfully"
                    else "Webhook delivery failed" })
        ∧ (∀ m, net (mkDelivery hmac w "test" ts testData)
              = FetchResult.netError m →
          testWebhook net hmac reg wid ts
            = Except.ok
                { success := false
                , statusCode := none
                , errorMsg := some m
                , message := "Failed to deliver test webhook" })) := by
  refine ⟨rfl, by simp [dispatchWebhooks], ?_⟩
  intro hfind
  constructor
  · intro s hs
    rw [testWebhook_found net hmac reg wid ts w hfind, hs]
  · intro m hm
    rw [testWebhook_found net hmac reg wid ts w hfind, hm]

/-- Witness for `delivery_failure_only_logged`: a refused connection on the
test path comes back as a result value carrying the error message. -/
theorem delivery_failure_only_logged_witness :
    regTwo.find? (fun w' => w'.id == "id1") = some wOrder
    ∧ testWebhook netRefused hmacStub regTwo "id1" "T1"
        = Except.ok
            { success := false
            , statusCode := none
            , errorMsg := some "ECONNREFUSED"
            , message := "Failed to deliver test webhook" } :=
  ⟨by decide,
   ((delivery_failure_only_logged netRefused netOk200 hmacStub regTwo "T1"
        "order.created" (Json.str "x") "id1" wOrder).2.2 (by decide)).2
     "ECONNREFUSED" rfl⟩

/-- C6 counterexample: a delivery produced by `emit` carries no
`X-Event-Name` header — the code names its headers `X-ZeroERP-Event`,
`X-ZeroERP-Timestamp` and `X-ZeroERP-Signature` — so the claim that every
delivery carries `X-Event-Name` and `X-Event-Timestamp` is false on the
code. -/
theorem delivery_header_names_differ :
    (emitEvent hmacStub regTwo "T1" "order.created" (Json.str "x")).map
        (fun p => headerValue p.2.headers "X-Event-Name") = [none]
    ∧ (emitEvent hmacStub regTwo "T1" "order.created" (Json.str "x")).map
        (fun p => headerValue p.2.headers "X-Event-Timestamp") = [none]
    ∧ (emitEvent hmacStub regTwo "T1" "order.created" (Json.str "x")).map
        (fun p => headerValue p.2.headers "X-ZeroERP-Event")
      = [some "order.created"] :=
  ⟨rfl, rfl, rfl⟩

/-- C6 (amended): every webhook delivery HTTP POST — dispatcher path and
test path alike — carries the headers `X-ZeroERP-Event` (the event name)
and `X-ZeroERP-Timestamp` (the payload timestamp), plus
`X-ZeroERP-Signature` exactly when the subscriber has a secret, and
`Content-Type: application/json`; its body is the canonical JSON
serialization of the `WebhookPayload` `{event, timestamp, data}`. -/
theorem delivery_wire_format (hmac : String → String → String)
    (reg : List Webhook) (ts event : String) (data : Json) (w : Webhook)
    (d : Delivery) :
    ((w, d) ∈ emitEvent hmac reg ts event data →
      headerValue d.headers "X-ZeroERP-Event" = some event
      ∧ headerValue d.headers "X-ZeroERP-Timestamp" = some ts
      ∧ headerValue d.headers "Content-Type" = some "application/json"
      ∧ (w.secret ≠ "" →
          (headerValue d.headers "X-ZeroERP-Signature").isSome = true)
      ∧ (w.secret = "" → headerValue d.headers "X-ZeroERP-Signature" = none)
      ∧ d.body = (payloadJson event ts data).stringify)
    ∧ (headerValue (mkDelivery hmac w "test" ts testData).headers
          "X-ZeroERP-Event" = some "test"
      ∧ (mkDelivery hmac w "test" ts testData).body
          = (payloadJson "test" ts testData).stringify) := by
  constructor
  · intro hm
    obtain ⟨rfl, -, -⟩ := mem_emitEvent hm
    refine ⟨mkDelivery_headers_event hmac w event ts data,
      mkDelivery_headers_timestamp hmac w event ts data,
      mkDelivery_headers_ctype hmac w event ts data, ?_, ?_,
      mkDelivery_body hmac w event ts data⟩
    · intro hs
      rw [mkDelivery_headers_sig hmac w event ts data hs]
      rfl
    · intro hs
      exact mkDelivery_headers_sig_none hmac w event ts data hs
  · exact ⟨mkDelivery_headers_event hmac w "test" ts testData,
      mkDelivery_body hmac w "test" ts testData⟩

/-- Witness for `delivery_wire_format` on the concrete `order.created`
delivery. -/
theorem delivery_wire_format_witness :
    headerValue (mkDelivery hmacStub wOrder "order.created" "T1"
        (Json.str "x")).headers "X-ZeroERP-Event" = some "order.created"
    ∧ (mkDelivery hmacStub wOrder "order.created" "T1" (Json.str "x")).body
        = (payloadJson "order.created" "T1" (Json.str "x")).stringify :=
  ⟨((delivery_wire_format hmacStub regTwo "T1" "order.created" (Json.str "x")
      wOrder _).1 memOrderAttempt).1,
   ((delivery_wire_format hmacStub regTwo "T1" "order.created" (Json.str "x")
      wOrder _).1 memOrderAttempt).2.2.2.2.2⟩
